import Mathlib

/-
Verification of the guest-record normalization, filtering, aggregation and
export pipeline of the RSVP dashboard (site/src/hooks/useGuestData.ts and the
table component's exportToCSV), against its natural-language specification.

The TypeScript code is shallowly embedded: raw CSV rows become ordered
association lists from header strings to value strings, JavaScript's falsy
string coalescing (a || b) becomes jsOrS, and the enum string unions become
inductive types.  All definitions are executable.
-/

set_option maxHeartbeats 1000000

namespace RSVP

/-- RSVPStatus from types/guest.ts:
'Attending' | 'Declined' | 'No Response' | 'Not Invited'. -/
inductive RSVPStatus where
  | Attending
  | Declined
  | NoResponse
  | NotInvited
deriving DecidableEq, Repr

/-- The Bride/Groom group union 'Bride' | 'Groom' | 'Unknown'. -/
inductive BrideOrGroom where
  | Bride
  | Groom
  | Unknown
deriving DecidableEq, Repr

/-- Guest from types/guest.ts. -/
structure Guest where
  title : String
  firstName : String
  lastName : String
  suffix : String
  saumyaVidhiHaaldi : RSVPStatus
  mahekVidhiHaaldi : RSVPStatus
  wedding : RSVPStatus
  reception : RSVPStatus
  side : String
  brideOrGroom : BrideOrGroom
  email : String
  phone : String
  address : String
deriving DecidableEq, Repr

/-- RawGuestData = Record of string to string: one parsed CSV row, embedded as
an ordered association list (JavaScript objects keep insertion order of keys). -/
abbrev RawGuestData : Type := List (String × String)

/-- JavaScript property access raw[k]: some value when the key is present
(first binding), none when absent (undefined). -/
def jsGet (raw : RawGuestData) (k : String) : Option String :=
  (List.find? (fun kv => decide (kv.1 = k)) raw).map (fun kv => kv.2)

/-- JavaScript string coalescing a || b where a may be undefined: the empty
string is falsy, so it falls through to b. -/
def jsOrS (a : Option String) (b : String) : String :=
  match a with
  | some s => if s = "" then b else s
  | none => b

/-- Whitespace recognized by JavaScript String.prototype.trim (common cases). -/
def isJsWhitespace (c : Char) : Bool :=
  decide (c = ' ') || decide (c = '\t') || decide (c = '\n') || decide (c = '\r')

/-- Embedding of value.trim(): drop whitespace from both ends. -/
def jsTrim (s : String) : String :=
  String.mk ((((s.data.dropWhile isJsWhitespace).reverse).dropWhile isJsWhitespace).reverse)

/-- Embedding of s.toLowerCase() (ASCII case folding, as used by the headers). -/
def toLowerStr (s : String) : String :=
  String.mk (s.data.map Char.toLower)

/-- Does the pattern occur at the very start of the character list? -/
def leadsWith : List Char → List Char → Bool
  | [], _ => true
  | _ :: _, [] => false
  | p :: ps, c :: cs => decide (p = c) && leadsWith ps cs

/-- Does the pattern occur anywhere inside the haystack character list? -/
def containsLC : List Char → List Char → Bool
  | [], pat => leadsWith pat []
  | c :: t, pat => leadsWith pat (c :: t) || containsLC t pat

/-- Embedding of hay.includes(pat) on strings. -/
def strIncludes (hay pat : String) : Bool :=
  containsLC hay.data pat.data

/-- parseRSVPStatus from useGuestData.ts: normalized = value?.trim() || '';
exact comparisons against the three literal strings, anything else is
No Response. -/
def parseRSVPStatus (value : String) : RSVPStatus :=
  let normalized := if jsTrim value = "" then "" else jsTrim value
  if normalized = "Attending" then RSVPStatus.Attending
  else if normalized = "Declined" then RSVPStatus.Declined
  else if normalized = "Not Invited" then RSVPStatus.NotInvited
  else RSVPStatus.NoResponse

/-- First loop of getColumnValue: for each pattern in order, return
raw[pattern] when it is defined. -/
def exactLoop (raw : RawGuestData) : List String → Option String
  | [] => none
  | p :: ps =>
    match jsGet raw p with
    | some v => some v
    | none => exactLoop raw ps

/-- Second loop of getColumnValue: for each pattern in order, find the first
key whose lowercased name contains the lowercased pattern and return its value. -/
def substrLoop (raw : RawGuestData) : List String → Option String
  | [] => none
  | p :: ps =>
    match List.find? (fun k => strIncludes (toLowerStr k) (toLowerStr p)) (raw.map (fun kv => kv.1)) with
    | some k => some ((jsGet raw k).getD "")
    | none => substrLoop raw ps

/-- getColumnValue from useGuestData.ts: exact header match first (in pattern
order), then case-insensitive substring match (in pattern order, first key
found), else the empty string. -/
def getColumnValue (raw : RawGuestData) (patterns : List String) : String :=
  match exactLoop raw patterns with
  | some v => v
  | none =>
    match substrLoop raw patterns with
    | some v => v
    | none => ""

/-- parseBrideOrGroom from useGuestData.ts: only the exact literals
'Bride' and 'Groom' are recognized; undefined and everything else is Unknown. -/
def parseBrideOrGroom (value : Option String) : BrideOrGroom :=
  if value = some "Bride" then BrideOrGroom.Bride
  else if value = some "Groom" then BrideOrGroom.Groom
  else BrideOrGroom.Unknown

/-- parseGuest from useGuestData.ts. -/
def parseGuest (raw : RawGuestData) : Guest :=
  let firstName := jsOrS (jsGet raw "First_Name") (jsOrS (jsGet raw "First Name") "")
  let lastName := jsOrS (jsGet raw "Last_Name") (jsOrS (jsGet raw "Last Name") "")
  let side := jsOrS (jsGet raw "Relationship") (jsOrS (jsGet raw "Side") "Unknown")
  let brideOrGroom :=
    if jsGet raw "Side" = some "Bride" ∨ jsGet raw "Side" = some "Groom" then
      parseBrideOrGroom (jsGet raw "Side")
    else
      parseBrideOrGroom (jsGet raw "Bride_or_Groom")
  { title := jsOrS (jsGet raw "Title") ""
    firstName := firstName
    lastName := lastName
    suffix := jsOrS (jsGet raw "Suffix") ""
    saumyaVidhiHaaldi := parseRSVPStatus (getColumnValue raw
      ["RSVP_Saumyas_Vidhi_and_Haaldi", "Saumya\x27s Vidhi & Haaldi", "saumya"])
    mahekVidhiHaaldi := parseRSVPStatus (getColumnValue raw
      ["RSVP_Maheks_Vidhi_and_Haaldi", "Mahek\x27s Vidhi & Haaldi", "mahek"])
    wedding := parseRSVPStatus (getColumnValue raw ["RSVP_Wedding", "Wedding"])
    reception := parseRSVPStatus (getColumnValue raw ["RSVP_Reception", "Reception"])
    side := side
    brideOrGroom := brideOrGroom
    email := jsOrS (jsGet raw "Email") ""
    phone := jsOrS (jsGet raw "Phone") ""
    address := jsOrS (jsGet raw "Address") "" }

/-- The brideOrGroom selection of GuestFilters: 'All' | 'Bride' | 'Groom'. -/
inductive GroupFilter where
  | All
  | Bride
  | Groom
deriving DecidableEq, Repr

/-- The rsvpStatus selection of GuestFilters: RSVPStatus | 'All'. -/
inductive StatusFilter where
  | all
  | only (s : RSVPStatus)
deriving DecidableEq, Repr

/-- GuestFilters from types/guest.ts (side is a free string with sentinel
'All', searchQuery a free string with sentinel ''). -/
structure GuestFilters where
  brideOrGroom : GroupFilter
  rsvpStatus : StatusFilter
  side : String
  searchQuery : String
deriving DecidableEq, Repr

/-- The initial filter state of useGuestData: everything inactive. -/
def initialFilters : GuestFilters :=
  { brideOrGroom := GroupFilter.All
    rsvpStatus := StatusFilter.all
    side := "All"
    searchQuery := "" }

/-- String equality of the selected group against the record group, as the
'!==' comparison of the union strings evaluates when the selection is not All. -/
def groupSelEq (f : GroupFilter) (bg : BrideOrGroom) : Bool :=
  match f, bg with
  | GroupFilter.Bride, BrideOrGroom.Bride => true
  | GroupFilter.Groom, BrideOrGroom.Groom => true
  | _, _ => false

/-- The status guard of filteredGuests: the selection is not All and the
record's wedding status differs from it. -/
def statusBlocks (st : StatusFilter) (w : RSVPStatus) : Bool :=
  match st with
  | StatusFilter.all => false
  | StatusFilter.only s => decide (w ≠ s)

/-- The filter body of filteredGuests in useGuestData.ts: the early-return
chain of the four predicates. -/
def guestMatches (f : GuestFilters) (g : Guest) : Bool :=
  if f.brideOrGroom ≠ GroupFilter.All ∧ groupSelEq f.brideOrGroom g.brideOrGroom = false then false
  else if statusBlocks f.rsvpStatus g.wedding then false
  else if f.side ≠ "All" ∧ g.side ≠ f.side then false
  else if f.searchQuery ≠ "" ∧
      strIncludes (toLowerStr (g.firstName ++ " " ++ g.lastName)) (toLowerStr f.searchQuery) = false then false
  else true

/-- filteredGuests from useGuestData.ts. -/
def filteredGuests (f : GuestFilters) (gs : List Guest) : List Guest :=
  gs.filter (guestMatches f)

/-- The accumulator of the reduce inside summaryStats. -/
structure StatsAcc where
  attending : Nat
  declined : Nat
  noResponse : Nat
  brideGuests : Nat
  groomGuests : Nat
deriving DecidableEq, Repr

/-- One step of the reduce inside summaryStats. -/
def statsStep (acc : StatsAcc) (g : Guest) : StatsAcc :=
  let acc1 :=
    if g.wedding = RSVPStatus.Attending then { acc with attending := acc.attending + 1 }
    else if g.wedding = RSVPStatus.Declined then { acc with declined := acc.declined + 1 }
    else if g.wedding = RSVPStatus.NoResponse then { acc with noResponse := acc.noResponse + 1 }
    else acc
  if g.brideOrGroom = BrideOrGroom.Bride then { acc1 with brideGuests := acc1.brideGuests + 1 }
  else if g.brideOrGroom = BrideOrGroom.Groom then { acc1 with groomGuests := acc1.groomGuests + 1 }
  else acc1

/-- EventStats from types/guest.ts. -/
structure EventStats where
  event : String
  attending : Nat
  declined : Nat
  noResponse : Nat
  notInvited : Nat
  brideAttending : Nat
  groomAttending : Nat
deriving DecidableEq, Repr

/-- One element of sideEventStats. -/
structure SideEventStats where
  side : BrideOrGroom
  event : String
  attending : Nat
  declined : Nat
  noResponse : Nat
deriving DecidableEq, Repr

/-- SummaryStats from types/guest.ts; responseRate is a percentage, embedded
as an exact rational. -/
structure SummaryStats where
  totalGuests : Nat
  totalAttending : Nat
  totalDeclined : Nat
  totalNoResponse : Nat
  responseRate : ℚ
  brideGuests : Nat
  groomGuests : Nat
  eventStats : List EventStats
  sideEventStats : List SideEventStats
deriving DecidableEq, Repr

/-- summaryStats from useGuestData.ts, as a pure function of the record set
it aggregates. -/
def summaryStats (gs : List Guest) : SummaryStats :=
  let stats := gs.foldl statsStep ⟨0, 0, 0, 0, 0⟩
  let totalResponded := stats.attending + stats.declined
  let totalInvited := (gs.filter (fun g => decide (g.wedding ≠ RSVPStatus.NotInvited))).length
  let events : List (String × (Guest → RSVPStatus)) :=
    [("Saumya\x27s Vidhi & Haaldi", fun g => g.saumyaVidhiHaaldi),
     ("Mahek\x27s Vidhi & Haaldi", fun g => g.mahekVidhiHaaldi),
     ("Wedding", fun g => g.wedding),
     ("Reception", fun g => g.reception)]
  let eventStats := events.map (fun ek =>
    { event := ek.1
      attending := (gs.filter (fun g => decide (ek.2 g = RSVPStatus.Attending))).length
      declined := (gs.filter (fun g => decide (ek.2 g = RSVPStatus.Declined))).length
      noResponse := (gs.filter (fun g => decide (ek.2 g = RSVPStatus.NoResponse))).length
      notInvited := (gs.filter (fun g => decide (ek.2 g = RSVPStatus.NotInvited))).length
      brideAttending := (gs.filter (fun g =>
        decide (ek.2 g = RSVPStatus.Attending ∧ g.brideOrGroom = BrideOrGroom.Bride))).length
      groomAttending := (gs.filter (fun g =>
        decide (ek.2 g = RSVPStatus.Attending ∧ g.brideOrGroom = BrideOrGroom.Groom))).length
      : EventStats })
  let sideEvents : List (String × (Guest → RSVPStatus)) :=
    [("Wedding", fun g => g.wedding), ("Reception", fun g => g.reception)]
  let sideList : List BrideOrGroom := [BrideOrGroom.Bride, BrideOrGroom.Groom]
  let sideEventStats := (sideEvents.map (fun ek => sideList.map (fun sd =>
    { side := sd
      event := ek.1
      attending := (gs.filter (fun g =>
        decide (ek.2 g = RSVPStatus.Attending ∧ g.brideOrGroom = sd))).length
      declined := (gs.filter (fun g =>
        decide (ek.2 g = RSVPStatus.Declined ∧ g.brideOrGroom = sd))).length
      noResponse := (gs.filter (fun g =>
        decide (ek.2 g = RSVPStatus.NoResponse ∧ g.brideOrGroom = sd))).length
      : SideEventStats }))).flatten
  { totalGuests := gs.length
    totalAttending := stats.attending
    totalDeclined := stats.declined
    totalNoResponse := stats.noResponse
    responseRate :=
      if totalInvited > 0 then ((totalResponded : ℚ) / (totalInvited : ℚ)) * 100 else 0
    brideGuests := stats.brideGuests
    groomGuests := stats.groomGuests
    eventStats := eventStats
    sideEventStats := sideEventStats }

/-- One entry of the relationshipStats output. -/
structure RelStat where
  relationship : String
  count : Nat
  brideOrGroom : BrideOrGroom
deriving DecidableEq, Repr

/-- One step of the forEach inside relationshipStats: a fresh side is
appended (JavaScript objects keep insertion order), an existing side is
incremented in place. -/
def bumpSide (acc : List RelStat) (g : Guest) : List RelStat :=
  if (List.find? (fun r => decide (r.relationship = g.side)) acc).isSome then
    acc.map (fun r => if r.relationship = g.side then { r with count := r.count + 1 } else r)
  else
    acc ++ [{ relationship := g.side, count := 1, brideOrGroom := g.brideOrGroom }]

/-- The counts object of relationshipStats, in key insertion order
(first-encountered order of side values). -/
def sideCounts (gs : List Guest) : List RelStat :=
  gs.foldl bumpSide []

/-- Stable insertion into a list sorted by descending count: the new element
goes after every element with a strictly greater count and also after none
with an equal one that was already there before it. -/
def insertByCount (x : RelStat) : List RelStat → List RelStat
  | [] => [x]
  | y :: ys => if y.count > x.count then y :: insertByCount x ys else x :: y :: ys

/-- Stable sort by descending count, the semantics of the JavaScript
Array.prototype.sort call with comparator b.count - a.count (ECMAScript
sort is stable). -/
def sortByCountDesc (l : List RelStat) : List RelStat :=
  l.foldr insertByCount []

/-- relationshipStats from useGuestData.ts. -/
def relationshipStats (gs : List Guest) : List RelStat :=
  sortByCountDesc (sideCounts gs)

/-- Association lookup of a side's count in a RelStat list, 0 when absent. -/
def lookupCount (l : List RelStat) (s : String) : Nat :=
  match List.find? (fun r => decide (r.relationship = s)) l with
  | some r => r.count
  | none => 0

/-- The key (relationship) list of a RelStat list. -/
def keysOf (l : List RelStat) : List String :=
  l.map (fun r => r.relationship)

/-- The literal string carried by each RSVPStatus union member. -/
def statusStr : RSVPStatus → String
  | RSVPStatus.Attending => "Attending"
  | RSVPStatus.Declined => "Declined"
  | RSVPStatus.NoResponse => "No Response"
  | RSVPStatus.NotInvited => "Not Invited"

/-- The literal string carried by each BrideOrGroom union member. -/
def groupStr : BrideOrGroom → String
  | BrideOrGroom.Bride => "Bride"
  | BrideOrGroom.Groom => "Groom"
  | BrideOrGroom.Unknown => "Unknown"

/-- The body of escapeCSV: the global regex replace of each double quote by
two double quotes, written out per character. -/
def escBody : List Char → List Char
  | [] => []
  | c :: t => (if c = '"' then ['"', '"'] else [c]) ++ escBody t

/-- escapeCSV from the table component's exportToCSV: wrap the cell in double
quotes, doubling each double quote inside it. -/
def escapeCSV (s : String) : String :=
  String.mk ('"' :: escBody s.data ++ ['"'])

/-- The header list of exportToCSV. -/
def exportHeaders : List String :=
  ["Title", "First Name", "Last Name", "Suffix", "Side", "Relationship",
   "Saumya\x27s V&H", "Mahek\x27s V&H", "Wedding", "Reception", "Email", "Phone", "Address"]

/-- The cell list exportToCSV writes for one guest (note: the Side column
carries brideOrGroom and the Relationship column carries side). -/
def exportRow (g : Guest) : List String :=
  [g.title, g.firstName, g.lastName, g.suffix, groupStr g.brideOrGroom, g.side,
   statusStr g.saumyaVidhiHaaldi, statusStr g.mahekVidhiHaaldi,
   statusStr g.wedding, statusStr g.reception, g.email, g.phone, g.address]

/-- JavaScript Array.prototype.join with a separator. -/
def joinSep (sep : String) : List String → String
  | [] => ""
  | [x] => x
  | x :: y :: xs => x ++ sep ++ joinSep sep (y :: xs)

/-- The line exportToCSV writes for one guest: every cell escaped and the
cells joined with commas. -/
def exportRowLine (g : Guest) : String :=
  joinSep "," ((exportRow g).map escapeCSV)

/-- exportToCSV from the table component: the unescaped header line followed
by one escaped line per (filtered) guest, joined with newlines. -/
def exportToCSV (gs : List Guest) : String :=
  joinSep "\n" (joinSep "," exportHeaders :: gs.map exportRowLine)

/-- Scanner mode of the CSV reader: inside an unquoted cell, inside a quoted
cell, or just after a double quote inside a quoted cell. -/
inductive CsvMode where
  | raw
  | quoted
  | afterQuote
deriving DecidableEq, Repr

/-- Scanner state of the CSV reader: mode, characters of the current cell,
finished cells of the current row, finished rows. -/
structure CsvSt where
  mode : CsvMode
  cur : List Char
  row : List String
  rows : List (List String)
deriving DecidableEq, Repr

/-- Modelled from the spec: one character step of the external tabular
reader (Papa.parse, an external collaborator not in this repository): cells
are separated by commas and rows by newlines; a cell starting with a double
quote runs to its closing quote, with a doubled quote standing for a literal
one; commas and newlines inside quotes are cell text. -/
def csvStep (st : CsvSt) (c : Char) : Option CsvSt :=
  match st.mode with
  | CsvMode.raw =>
    if c = ',' then some { st with cur := [], row := st.row ++ [String.mk st.cur] }
    else if c = '\n' then
      some { st with cur := [], row := [], rows := st.rows ++ [st.row ++ [String.mk st.cur]] }
    else if c = '"' ∧ st.cur = [] then some { st with mode := CsvMode.quoted }
    else some { st with cur := st.cur ++ [c] }
  | CsvMode.quoted =>
    if c = '"' then some { st with mode := CsvMode.afterQuote }
    else some { st with cur := st.cur ++ [c] }
  | CsvMode.afterQuote =>
    if c = '"' then some { st with mode := CsvMode.quoted, cur := st.cur ++ ['"'] }
    else if c = ',' then
      some { st with mode := CsvMode.raw, cur := [], row := st.row ++ [String.mk st.cur] }
    else if c = '\n' then
      some { st with mode := CsvMode.raw, cur := [], row := [], rows := st.rows ++ [st.row ++ [String.mk st.cur]] }
    else none

/-- Run the CSV scanner over a character list. -/
def csvRun : List Char → CsvSt → Option CsvSt
  | [], st => some st
  | c :: cs, st =>
    match csvStep st c with
    | some st2 => csvRun cs st2
    | none => none

/-- Flush the final cell and row of the scanner; an unterminated quoted cell
is a parse error. -/
def csvFinish (st : CsvSt) : Option (List (List String)) :=
  match st.mode with
  | CsvMode.quoted => none
  | _ => some (st.rows ++ [st.row ++ [String.mk st.cur]])

/-- Modelled from the spec: the external tabular reader on a whole document
(empty input parses to no rows). -/
def parseCSVText (s : String) : Option (List (List String)) :=
  if s = "" then some []
  else (csvRun s.data { mode := CsvMode.raw, cur := [], row := [], rows := [] }).bind csvFinish

/-- Modelled from the spec: the header-mode of the external tabular reader,
pairing each data row positionally with the header row, producing the raw
row objects handed to parseGuest. -/
def papaParse (s : String) : Option (List RawGuestData) :=
  (parseCSVText s).map (fun rows =>
    match rows with
    | [] => []
    | hdr :: rest => rest.map (fun r => (hdr.zip r : RawGuestData)))

/-- The raw row that re-reading the exported file produces for one guest. -/
def rawOfGuest (g : Guest) : RawGuestData :=
  exportHeaders.zip (exportRow g)

/-- A guest record with every text field empty and every status defaulted,
the output of parseGuest on an empty raw row. -/
def baseGuest : Guest :=
  { title := "", firstName := "", lastName := "", suffix := ""
    saumyaVidhiHaaldi := RSVPStatus.NoResponse, mahekVidhiHaaldi := RSVPStatus.NoResponse
    wedding := RSVPStatus.NoResponse, reception := RSVPStatus.NoResponse
    side := "Unknown", brideOrGroom := BrideOrGroom.Unknown
    email := "", phone := "", address := "" }

/-- A guest whose wedding status is the given one. -/
def withWedding (w : RSVPStatus) : Guest :=
  { baseGuest with wedding := w }

/-- A guest whose side is the given label. -/
def withSide (s : String) : Guest :=
  { baseGuest with side := s }

/-- The ten-record example of the specification: 4 Not Invited, 3 Attending,
1 Declined, 2 No Response for the wedding. -/
def exampleTen : List Guest :=
  [withWedding RSVPStatus.NotInvited, withWedding RSVPStatus.NotInvited,
   withWedding RSVPStatus.NotInvited, withWedding RSVPStatus.NotInvited,
   withWedding RSVPStatus.Attending, withWedding RSVPStatus.Attending,
   withWedding RSVPStatus.Attending, withWedding RSVPStatus.Declined,
   withWedding RSVPStatus.NoResponse, withWedding RSVPStatus.NoResponse]

/-- The tie-break example of the specification: sides in input order
Friend, Family, Friend, Family. -/
def exampleSides : List Guest :=
  [withSide "Friend", withSide "Family", withSide "Friend", withSide "Family"]

/-- A Bride-side guest attending the wedding. -/
def exampleBrideAttending : Guest :=
  { baseGuest with brideOrGroom := BrideOrGroom.Bride, wedding := RSVPStatus.Attending }

/-- A Groom-side guest who declined the wedding. -/
def exampleGroomDeclined : Guest :=
  { baseGuest with brideOrGroom := BrideOrGroom.Groom, wedding := RSVPStatus.Declined }

/-- Criteria selecting group Bride and status Attending. -/
def filterBrideAttending : GuestFilters :=
  { brideOrGroom := GroupFilter.Bride, rsvpStatus := StatusFilter.only RSVPStatus.Attending
    side := "All", searchQuery := "" }

/-- Criteria selecting group Bride and status Declined. -/
def filterBrideDeclined : GuestFilters :=
  { brideOrGroom := GroupFilter.Bride, rsvpStatus := StatusFilter.only RSVPStatus.Declined
    side := "All", searchQuery := "" }

/-- A concrete guest exercising every exported column, including a double
quote and a comma inside the address cell. -/
def exampleExportGuest : Guest :=
  { title := "Mr", firstName := "Jo", lastName := "Smith", suffix := "Jr"
    saumyaVidhiHaaldi := RSVPStatus.Attending, mahekVidhiHaaldi := RSVPStatus.Declined
    wedding := RSVPStatus.NoResponse, reception := RSVPStatus.NotInvited
    side := "Family", brideOrGroom := BrideOrGroom.Bride
    email := "jo@example.com", phone := "555"
    address := "1 \"A\" St, Town" }

/-! Shared helper lemmas. -/

theorem leadsWith_self (l : List Char) : leadsWith l l = true := by
  induction l with
  | nil => rfl
  | cons c t ih => simp [leadsWith, ih]

theorem strIncludes_self (s : String) : strIncludes s s = true := by
  unfold strIncludes
  cases h : s.data with
  | nil => rfl
  | cons c t => simp [containsLC, leadsWith_self]

theorem jsGet_eq_none (raw : RawGuestData) (p : String)
    (h : ∀ kv ∈ raw, kv.1 ≠ p) : jsGet raw p = none := by
  unfold jsGet
  rw [List.find?_eq_none.mpr]
  · rfl
  · intro kv hkv
    simp [h kv hkv]

theorem exactLoop_eq_none (raw : RawGuestData) (ps : List String)
    (h : ∀ p ∈ ps, jsGet raw p = none) : exactLoop raw ps = none := by
  induction ps with
  | nil => rfl
  | cons p t ih =>
    rw [exactLoop, h p (List.mem_cons_self p t)]
    exact ih (fun q hq => h q (List.mem_cons_of_mem p hq))

theorem substrLoop_eq_none (raw : RawGuestData) (ps : List String)
    (h : ∀ p ∈ ps, List.find? (fun k => strIncludes (toLowerStr k) (toLowerStr p)) (raw.map (fun kv => kv.1)) = none) :
    substrLoop raw ps = none := by
  induction ps with
  | nil => rfl
  | cons p t ih =>
    rw [substrLoop, h p (List.mem_cons_self p t)]
    exact ih (fun q hq => h q (List.mem_cons_of_mem p hq))

theorem getColumnValue_eq_empty (raw : RawGuestData) (ps : List String)
    (h : ∀ kv ∈ raw, ∀ p ∈ ps, kv.1 ≠ p ∧ strIncludes (toLowerStr kv.1) (toLowerStr p) = false) :
    getColumnValue raw ps = "" := by
  unfold getColumnValue
  rw [exactLoop_eq_none raw ps (fun p hp =>
    jsGet_eq_none raw p (fun kv hkv => (h kv hkv p hp).1))]
  rw [substrLoop_eq_none raw ps (fun p hp => ?_)]
  rw [List.find?_eq_none.mpr]
  intro k hk
  rcases List.mem_map.mp hk with ⟨kv, hkv, rfl⟩
  simp [(h kv hkv p hp).2]

theorem exactLoop_eq_findSome (raw : RawGuestData) (ps : List String) :
    exactLoop raw ps = ps.findSome? (fun p => jsGet raw p) := by
  induction ps with
  | nil => rfl
  | cons p t ih =>
    rw [exactLoop, List.findSome?_cons]
    cases jsGet raw p with
    | some v => rfl
    | none => exact ih

theorem substrLoop_eq_findSome (raw : RawGuestData) (ps : List String) :
    substrLoop raw ps = ps.findSome? (fun p =>
      (List.find? (fun k => strIncludes (toLowerStr k) (toLowerStr p)) (raw.map (fun kv => kv.1))).map
        (fun k => (jsGet raw k).getD "")) := by
  induction ps with
  | nil => rfl
  | cons p t ih =>
    rw [substrLoop, List.findSome?_cons]
    cases List.find? (fun k => strIncludes (toLowerStr k) (toLowerStr p)) (raw.map (fun kv => kv.1)) with
    | some k => rfl
    | none => exact ih

/-! Claim theorems: column resolution (C2). -/

/-- C2: the column resolver returns the value of the first pattern with an
exact header match; failing that, the value of the first header whose
lowercased name contains the lowercased pattern, patterns in order; failing
both, the empty string.  An exact match of a later pattern always beats a
substring match of an earlier one, and an exact match of the first pattern
beats everything else. -/
theorem getColumnValue_precedence :
    (∀ raw : RawGuestData, ∀ ps : List String,
      getColumnValue raw ps =
        (match ps.findSome? (fun p => jsGet raw p) with
         | some v => v
         | none =>
           match ps.findSome? (fun p =>
               (List.find? (fun k => strIncludes (toLowerStr k) (toLowerStr p)) (raw.map (fun kv => kv.1))).map
                 (fun k => (jsGet raw k).getD "")) with
           | some v => v
           | none => ""))
  ∧ (∀ raw : RawGuestData, ∀ pA : String, ∀ ps : List String, ∀ v : String,
      jsGet raw pA = some v → getColumnValue raw (pA :: ps) = v)
  ∧ (∀ raw : RawGuestData, ∀ pA pB : String, ∀ v : String,
      jsGet raw pA = none → jsGet raw pB = some v → getColumnValue raw [pA, pB] = v) := by
  refine ⟨fun raw ps => ?_, fun raw pA ps v h => ?_, fun raw pA pB v hA hB => ?_⟩
  · rw [getColumnValue, exactLoop_eq_findSome, substrLoop_eq_findSome]
  · rw [getColumnValue, exactLoop, h]
  · rw [getColumnValue, exactLoop, hA, exactLoop, hB]

/-- Witness for C2 at a concrete row: the exact match of the second pattern
beats the substring match of the first pattern. -/
theorem getColumnValue_precedence_witness :
    jsGet [("xWeddingx", "sub"), ("RSVP", "exact")] "Wedding" = none ∧
    jsGet [("xWeddingx", "sub"), ("RSVP", "exact")] "RSVP" = some "exact" ∧
    getColumnValue [("xWeddingx", "sub"), ("RSVP", "exact")] ["Wedding", "RSVP"] = "exact" :=
  ⟨by decide, by decide,
   getColumnValue_precedence.2.2 [("xWeddingx", "sub"), ("RSVP", "exact")] "Wedding" "RSVP" "exact"
     (by decide) (by decide)⟩

/-! Claim theorems: status normalization (C3). -/

/-- C3: status normalization trims the input, maps the exact literals
Attending, Declined and Not Invited to their enum values and everything else
(including the empty string) to No Response; consequently a raw row with no
matching status column at all parses to No Response for that event, and in
particular parseGuest yields wedding = No Response on such a row. -/
theorem parseRSVPStatus_normalization :
    (∀ s : String, parseRSVPStatus s =
      (if jsTrim s = "Attending" then RSVPStatus.Attending
       else if jsTrim s = "Declined" then RSVPStatus.Declined
       else if jsTrim s = "Not Invited" then RSVPStatus.NotInvited
       else RSVPStatus.NoResponse))
  ∧ (∀ raw : RawGuestData, ∀ ps : List String,
      (∀ kv ∈ raw, ∀ p ∈ ps, kv.1 ≠ p ∧ strIncludes (toLowerStr kv.1) (toLowerStr p) = false) →
      parseRSVPStatus (getColumnValue raw ps) = RSVPStatus.NoResponse)
  ∧ (∀ raw : RawGuestData,
      (∀ kv ∈ raw, ∀ p ∈ ["RSVP_Wedding", "Wedding"],
        kv.1 ≠ p ∧ strIncludes (toLowerStr kv.1) (toLowerStr p) = false) →
      (parseGuest raw).wedding = RSVPStatus.NoResponse) := by
  have hchar : ∀ s : String, parseRSVPStatus s =
      (if jsTrim s = "Attending" then RSVPStatus.Attending
       else if jsTrim s = "Declined" then RSVPStatus.Declined
       else if jsTrim s = "Not Invited" then RSVPStatus.NotInvited
       else RSVPStatus.NoResponse) := by
    intro s
    rw [parseRSVPStatus]
    by_cases h : jsTrim s = ""
    · simp [h]
    · simp [h]
  refine ⟨hchar, fun raw ps h => ?_, fun raw h => ?_⟩
  · rw [getColumnValue_eq_empty raw ps h]
    rfl
  · show parseRSVPStatus (getColumnValue raw ["RSVP_Wedding", "Wedding"]) = RSVPStatus.NoResponse
    rw [getColumnValue_eq_empty raw _ h]
    rfl

/-- Witness for C3 at a concrete row lacking every wedding status column. -/
theorem parseRSVPStatus_normalization_witness :
    (parseGuest [("Title", "Dr"), ("First Name", "Ann")]).wedding = RSVPStatus.NoResponse :=
  parseRSVPStatus_normalization.2.2 [("Title", "Dr"), ("First Name", "Ann")] (by decide)

/-! Claim theorems: group normalization and parser totality (C7). -/

/-- C7: the parser prefers the direct group column (Side) when it carries one
of the two recognized literals and otherwise falls back to the legacy column
(Bride_or_Groom); only the exact untrimmed case-sensitive literals Bride and
Groom are recognized, every other value (absence, other casings, padded
strings) giving Unknown; and on a completely empty raw row the parser
degrades every field to the empty string, Unknown or No Response. -/
theorem parseGuest_group_normalization :
    (∀ raw : RawGuestData, (parseGuest raw).brideOrGroom =
      (if jsGet raw "Side" = some "Bride" ∨ jsGet raw "Side" = some "Groom"
       then parseBrideOrGroom (jsGet raw "Side")
       else parseBrideOrGroom (jsGet raw "Bride_or_Groom")))
  ∧ (∀ v : Option String, v ≠ some "Bride" → v ≠ some "Groom" →
      parseBrideOrGroom v = BrideOrGroom.Unknown)
  ∧ parseBrideOrGroom (some "bride") = BrideOrGroom.Unknown
  ∧ parseBrideOrGroom (some " Bride ") = BrideOrGroom.Unknown
  ∧ parseBrideOrGroom none = BrideOrGroom.Unknown
  ∧ parseGuest [] = baseGuest := by
  refine ⟨fun raw => rfl, fun v h1 h2 => ?_, by decide, by decide, by decide, by decide⟩
  rw [parseBrideOrGroom, if_neg h1, if_neg h2]

/-- Witness for C7 at a concrete unrecognized value. -/
theorem parseGuest_group_normalization_witness :
    parseBrideOrGroom (some "Groomsman") = BrideOrGroom.Unknown :=
  parseGuest_group_normalization.2.1 (some "Groomsman") (by decide) (by decide)

/-! Claim theorems: the all-inactive criteria are the identity (C9). -/

/-- C9: filtering with group All, status All, side All and an empty search
query (the initial filter state of useGuestData) returns the input list
unchanged. -/
theorem filteredGuests_all_inactive_id (gs : List Guest) :
    filteredGuests initialFilters gs = gs := by
  unfold filteredGuests
  rw [List.filter_eq_self]
  intro g _
  rw [guestMatches]
  simp [initialFilters, statusBlocks]

/-! The filter body as a pure conjunction (for C4 and C8). -/

theorem groupGuard_iff (bg : GroupFilter) (gbg : BrideOrGroom) :
    (bg ≠ GroupFilter.All ∧ groupSelEq bg gbg = false) ↔
      (decide (bg = GroupFilter.All) || groupSelEq bg gbg) = false := by
  cases bg <;> cases gbg <;> simp [groupSelEq]

theorem statusGuard_iff (st : StatusFilter) (w : RSVPStatus) :
    statusBlocks st w = true ↔
      (match st with
       | StatusFilter.all => true
       | StatusFilter.only s => decide (w = s)) = false := by
  cases st <;> simp [statusBlocks]

theorem sideGuard_iff (sd gsd : String) :
    (sd ≠ "All" ∧ gsd ≠ sd) ↔ (decide (sd = "All") || decide (gsd = sd)) = false := by
  by_cases h1 : sd = "All" <;> by_cases h2 : gsd = sd <;> simp [h1, h2]

theorem queryGuard_iff (q : String) (b : Bool) :
    (q ≠ "" ∧ b = false) ↔ (decide (q = "") || b) = false := by
  by_cases h : q = "" <;> cases b <;> simp [h]

theorem guestMatches_eq_conj (f : GuestFilters) (g : Guest) :
    guestMatches f g =
      ((decide (f.brideOrGroom = GroupFilter.All) || groupSelEq f.brideOrGroom g.brideOrGroom)
      && (match f.rsvpStatus with
          | StatusFilter.all => true
          | StatusFilter.only s => decide (g.wedding = s))
      && (decide (f.side = "All") || decide (g.side = f.side))
      && (decide (f.searchQuery = "") ||
          strIncludes (toLowerStr (g.firstName ++ " " ++ g.lastName)) (toLowerStr f.searchQuery))) := by
  rcases f with ⟨bg, st, sd, q⟩
  rcases st with _ | s <;>
  cases bg <;> cases hgb : g.brideOrGroom <;>
  by_cases h1 : sd = "All" <;> by_cases h2 : g.side = sd <;>
  by_cases h3 : q = "" <;>
  cases h4 : strIncludes (toLowerStr (g.firstName ++ " " ++ g.lastName)) (toLowerStr q) <;>
  first
  | (by_cases h5 : g.wedding = s <;> simp [guestMatches, statusBlocks, groupSelEq, *])
  | simp [guestMatches, statusBlocks, groupSelEq, *]

/-! Claim theorems: filter conjunction (C4). -/

/-- C4: the filter engine returns exactly the records satisfying the
conjunction of the four predicates (group, wedding status, side, lowercased
name query), each inactive at its sentinel; in particular, on the
Bride-Attending / Groom-Declined pair, selecting Bride and Attending yields
exactly the first record and selecting Bride and Declined yields nothing. -/
theorem filteredGuests_conjunction :
    (∀ f : GuestFilters, ∀ gs : List Guest,
      filteredGuests f gs = gs.filter (fun g =>
        (decide (f.brideOrGroom = GroupFilter.All) || groupSelEq f.brideOrGroom g.brideOrGroom)
        && (match f.rsvpStatus with
            | StatusFilter.all => true
            | StatusFilter.only s => decide (g.wedding = s))
        && (decide (f.side = "All") || decide (g.side = f.side))
        && (decide (f.searchQuery = "") ||
            strIncludes (toLowerStr (g.firstName ++ " " ++ g.lastName)) (toLowerStr f.searchQuery))))
  ∧ filteredGuests filterBrideAttending [exampleBrideAttending, exampleGroomDeclined] =
      [exampleBrideAttending]
  ∧ filteredGuests filterBrideDeclined [exampleBrideAttending, exampleGroomDeclined] = [] := by
  refine ⟨fun f gs => ?_, by decide, by decide⟩
  exact List.filter_congr (fun g _ => guestMatches_eq_conj f g)

/-! Claim theorems: filter stability and predicate-order independence (C8). -/

/-- C8: the filter engine's output is a subsequence of its input (records
keep their original relative order), and evaluating the four predicates in
the reverse order yields the same result set. -/
theorem filteredGuests_stable_reorderable :
    (∀ f : GuestFilters, ∀ gs : List Guest, (filteredGuests f gs).Sublist gs)
  ∧ (∀ f : GuestFilters, ∀ gs : List Guest,
      filteredGuests f gs = gs.filter (fun g =>
        (decide (f.searchQuery = "") ||
            strIncludes (toLowerStr (g.firstName ++ " " ++ g.lastName)) (toLowerStr f.searchQuery))
        && (decide (f.side = "All") || decide (g.side = f.side))
        && (match f.rsvpStatus with
            | StatusFilter.all => true
            | StatusFilter.only s => decide (g.wedding = s))
        && (decide (f.brideOrGroom = GroupFilter.All) || groupSelEq f.brideOrGroom g.brideOrGroom))) := by
  refine ⟨fun f gs => List.filter_sublist gs, fun f gs => ?_⟩
  apply List.filter_congr
  intro g _
  rw [guestMatches_eq_conj f g]
  generalize (decide (f.brideOrGroom = GroupFilter.All) || groupSelEq f.brideOrGroom g.brideOrGroom) = a
  generalize (match f.rsvpStatus with
      | StatusFilter.all => true
      | StatusFilter.only s => decide (g.wedding = s)) = b
  generalize (decide (f.side = "All") || decide (g.side = f.side)) = c
  generalize (decide (f.searchQuery = "") ||
      strIncludes (toLowerStr (g.firstName ++ " " ++ g.lastName)) (toLowerStr f.searchQuery)) = d
  cases a <;> cases b <;> cases c <;> cases d <;> rfl

/-! Aggregator lemmas (for C1 and C10). -/

theorem statsStep_attending (acc : StatsAcc) (g : Guest) :
    (statsStep acc g).attending =
      acc.attending + (if g.wedding = RSVPStatus.Attending then 1 else 0) := by
  rw [statsStep]
  cases hw : g.wedding <;> cases hb : g.brideOrGroom <;> simp

theorem statsStep_declined (acc : StatsAcc) (g : Guest) :
    (statsStep acc g).declined =
      acc.declined + (if g.wedding = RSVPStatus.Declined then 1 else 0) := by
  rw [statsStep]
  cases hw : g.wedding <;> cases hb : g.brideOrGroom <;> simp

theorem foldl_statsStep_attending (gs : List Guest) :
    ∀ acc : StatsAcc, (gs.foldl statsStep acc).attending =
      acc.attending + gs.countP (fun g => decide (g.wedding = RSVPStatus.Attending)) := by
  induction gs with
  | nil => intro acc; simp
  | cons g t ih =>
    intro acc
    rw [List.foldl_cons, ih (statsStep acc g), statsStep_attending, List.countP_cons]
    by_cases h : g.wedding = RSVPStatus.Attending <;> simp [h] <;> omega

theorem foldl_statsStep_declined (gs : List Guest) :
    ∀ acc : StatsAcc, (gs.foldl statsStep acc).declined =
      acc.declined + gs.countP (fun g => decide (g.wedding = RSVPStatus.Declined)) := by
  induction gs with
  | nil => intro acc; simp
  | cons g t ih =>
    intro acc
    rw [List.foldl_cons, ih (statsStep acc g), statsStep_declined, List.countP_cons]
    by_cases h : g.wedding = RSVPStatus.Declined <;> simp [h] <;> omega

theorem summaryStats_responseRate_eq (gs : List Guest) :
    (summaryStats gs).responseRate =
      (if gs.countP (fun g => decide (g.wedding ≠ RSVPStatus.NotInvited)) = 0 then 0
       else ((gs.countP (fun g => decide (g.wedding = RSVPStatus.Attending)) +
              gs.countP (fun g => decide (g.wedding = RSVPStatus.Declined)) : ℚ) /
             (gs.countP (fun g => decide (g.wedding ≠ RSVPStatus.NotInvited)) : ℚ)) * 100) := by
  have hdef : (summaryStats gs).responseRate =
      (if (gs.filter (fun g => decide (g.wedding ≠ RSVPStatus.NotInvited))).length > 0
       then ((((gs.foldl statsStep ⟨0, 0, 0, 0, 0⟩).attending +
               (gs.foldl statsStep ⟨0, 0, 0, 0, 0⟩).declined : ℕ) : ℚ) /
             (((gs.filter (fun g => decide (g.wedding ≠ RSVPStatus.NotInvited))).length : ℕ) : ℚ)) * 100
       else 0) := rfl
  rw [hdef, ← List.countP_eq_length_filter, foldl_statsStep_attending, foldl_statsStep_declined]
  dsimp only
  rw [Nat.zero_add, Nat.zero_add]
  rcases Nat.eq_zero_or_pos (gs.countP (fun g => decide (g.wedding ≠ RSVPStatus.NotInvited))) with h | h
  · rw [h]
    norm_num
  · rw [if_pos h, if_neg (Nat.pos_iff_ne_zero.mp h)]
    push_cast
    ring

theorem countP_att_add_declined_le (gs : List Guest) :
    gs.countP (fun g => decide (g.wedding = RSVPStatus.Attending)) +
      gs.countP (fun g => decide (g.wedding = RSVPStatus.Declined)) ≤
      gs.countP (fun g => decide (g.wedding ≠ RSVPStatus.NotInvited)) := by
  induction gs with
  | nil => simp
  | cons g t ih =>
    simp only [List.countP_cons]
    cases hw : g.wedding <;> simp [hw] at ih ⊢ <;> omega

/-! Claim theorems: the response-rate formula (C1). -/

/-- C1: responseRate is (attending + declined) divided by the number of
records whose wedding status is not Not Invited, times 100, and exactly 0
when that denominator is 0; on the ten-record example of the specification
(4 Not Invited, 3 Attending, 1 Declined, 2 No Response) it is exactly
200/3. -/
theorem responseRate_formula :
    (∀ gs : List Guest, (summaryStats gs).responseRate =
      (if gs.countP (fun g => decide (g.wedding ≠ RSVPStatus.NotInvited)) = 0 then 0
       else ((gs.countP (fun g => decide (g.wedding = RSVPStatus.Attending)) +
              gs.countP (fun g => decide (g.wedding = RSVPStatus.Declined)) : ℚ) /
             (gs.countP (fun g => decide (g.wedding ≠ RSVPStatus.NotInvited)) : ℚ)) * 100))
  ∧ (summaryStats exampleTen).responseRate = 200 / 3 := by
  refine ⟨summaryStats_responseRate_eq, ?_⟩
  rw [summaryStats_responseRate_eq]
  rw [show exampleTen.countP (fun g => decide (g.wedding ≠ RSVPStatus.NotInvited)) = 6 from by decide]
  rw [show exampleTen.countP (fun g => decide (g.wedding = RSVPStatus.Attending)) = 3 from by decide]
  rw [show exampleTen.countP (fun g => decide (g.wedding = RSVPStatus.Declined)) = 1 from by decide]
  norm_num

/-! Claim theorems: the response rate is a percentage (C10). -/

/-- C10: for every record set the response rate lies in [0, 100]: the
attending and declined counts are disjoint sub-counts of the records whose
wedding status is not Not Invited, and the zero-denominator case yields 0. -/
theorem responseRate_bounds (gs : List Guest) :
    0 ≤ (summaryStats gs).responseRate ∧ (summaryStats gs).responseRate ≤ 100 := by
  rw [summaryStats_responseRate_eq]
  rcases Nat.eq_zero_or_pos (gs.countP (fun g => decide (g.wedding ≠ RSVPStatus.NotInvited))) with h | h
  · rw [if_pos h]
    norm_num
  · rw [if_neg (Nat.pos_iff_ne_zero.mp h)]
    have hn : (0 : ℚ) < (gs.countP (fun g => decide (g.wedding ≠ RSVPStatus.NotInvited)) : ℚ) := by
      exact_mod_cast h
    have hle : ((gs.countP (fun g => decide (g.wedding = RSVPStatus.Attending)) +
        gs.countP (fun g => decide (g.wedding = RSVPStatus.Declined)) : ℚ)) ≤
        (gs.countP (fun g => decide (g.wedding ≠ RSVPStatus.NotInvited)) : ℚ) := by
      exact_mod_cast countP_att_add_declined_le gs
    constructor
    · apply mul_nonneg
      · apply div_nonneg
        · positivity
        · exact le_of_lt hn
      · norm_num
    · calc ((gs.countP (fun g => decide (g.wedding = RSVPStatus.Attending)) +
            gs.countP (fun g => decide (g.wedding = RSVPStatus.Declined)) : ℚ) /
           (gs.countP (fun g => decide (g.wedding ≠ RSVPStatus.NotInvited)) : ℚ)) * 100
          ≤ 1 * 100 := by
            apply mul_le_mul_of_nonneg_right
            · exact (div_le_one hn).mpr hle
            · norm_num
        _ = 100 := by norm_num

/-! Relationship-breakdown lemmas (for C5). -/

theorem mem_insertByCount {a x : RelStat} {l : List RelStat} :
    a ∈ insertByCount x l ↔ a = x ∨ a ∈ l := by
  induction l with
  | nil => simp [insertByCount]
  | cons y ys ih =>
    rw [insertByCount]
    by_cases h : y.count > x.count
    · rw [if_pos h]
      simp only [List.mem_cons, ih]
      tauto
    · rw [if_neg h]
      simp only [List.mem_cons]

theorem mem_sortByCountDesc {a : RelStat} {l : List RelStat} :
    a ∈ sortByCountDesc l ↔ a ∈ l := by
  induction l with
  | nil => simp [sortByCountDesc]
  | cons x xs ih =>
    show a ∈ insertByCount x (sortByCountDesc xs) ↔ _
    rw [mem_insertByCount]
    simp [ih]

theorem pairwise_insertByCount (x : RelStat) (l : List RelStat)
    (h : l.Pairwise (fun a b => b.count ≤ a.count)) :
    (insertByCount x l).Pairwise (fun a b => b.count ≤ a.count) := by
  induction l with
  | nil => simp [insertByCount]
  | cons y ys ih =>
    rw [insertByCount]
    rcases List.pairwise_cons.mp h with ⟨hy, hys⟩
    by_cases hc : y.count > x.count
    · rw [if_pos hc]
      refine List.pairwise_cons.mpr ⟨?_, ih hys⟩
      intro b hb
      rcases mem_insertByCount.mp hb with rfl | hb2
      · omega
      · exact hy b hb2
    · rw [if_neg hc]
      refine List.pairwise_cons.mpr ⟨?_, h⟩
      intro b hb
      rcases List.mem_cons.mp hb with rfl | hb2
      · omega
      · have := hy b hb2
        omega

theorem pairwise_sortByCountDesc (l : List RelStat) :
    (sortByCountDesc l).Pairwise (fun a b => b.count ≤ a.count) := by
  induction l with
  | nil => simp [sortByCountDesc]
  | cons x xs ih => exact pairwise_insertByCount x _ ih

theorem filter_insertByCount (x : RelStat) (l : List RelStat) (c : Nat) :
    (insertByCount x l).filter (fun r => decide (r.count = c)) =
      if x.count = c then x :: l.filter (fun r => decide (r.count = c))
      else l.filter (fun r => decide (r.count = c)) := by
  induction l with
  | nil =>
    by_cases hx : x.count = c <;> simp [insertByCount, hx]
  | cons y ys ih =>
    rw [insertByCount]
    by_cases hc : y.count > x.count
    · rw [if_pos hc, List.filter_cons, ih]
      by_cases hx : x.count = c
      · have hy : ¬ y.count = c := by omega
        rw [if_pos hx, if_pos hx]
        simp [hy, List.filter_cons]
      · rw [if_neg hx, if_neg hx]
        simp [List.filter_cons]
    · rw [if_neg hc]
      by_cases hx : x.count = c <;> simp [List.filter_cons, hx]

theorem filter_sortByCountDesc (l : List RelStat) (c : Nat) :
    (sortByCountDesc l).filter (fun r => decide (r.count = c)) =
      l.filter (fun r => decide (r.count = c)) := by
  induction l with
  | nil => rfl
  | cons x xs ih =>
    show (insertByCount x (sortByCountDesc xs)).filter _ = _
    rw [filter_insertByCount, List.filter_cons]
    by_cases hx : x.count = c <;> simp [hx, ih]

theorem find?_map_bump (acc : List RelStat) (t s : String) :
    List.find? (fun r => decide (r.relationship = s))
      (acc.map (fun r => if r.relationship = t then { r with count := r.count + 1 } else r)) =
    (List.find? (fun r => decide (r.relationship = s)) acc).map
      (fun r => if r.relationship = t then { r with count := r.count + 1 } else r) := by
  induction acc with
  | nil => rfl
  | cons r rs ih =>
    have hrel : ((if r.relationship = t then { r with count := r.count + 1 } else r) : RelStat).relationship
        = r.relationship := by
      split <;> rfl
    rw [List.map_cons]
    by_cases hp : r.relationship = s
    · rw [List.find?_cons_of_pos _ (by rw [decide_eq_true_eq, hrel]; exact hp),
        List.find?_cons_of_pos _ (by simp [hp])]
      rfl
    · rw [List.find?_cons_of_neg _ (by rw [decide_eq_true_eq, hrel]; exact hp),
        List.find?_cons_of_neg _ (by simp [hp])]
      exact ih

theorem lookupCount_bumpSide (acc : List RelStat) (g : Guest) (s : String) :
    lookupCount (bumpSide acc g) s = lookupCount acc s + (if g.side = s then 1 else 0) := by
  rw [bumpSide]
  by_cases hpres : (List.find? (fun r => decide (r.relationship = g.side)) acc).isSome
  · rw [if_pos hpres, lookupCount, find?_map_bump]
    cases hfind : List.find? (fun r => decide (r.relationship = s)) acc with
    | none =>
      have hne : ¬ g.side = s := by
        intro he
        rw [he, hfind] at hpres
        simp at hpres
      rw [lookupCount, hfind]
      simp [hne]
    | some r =>
      have hr : r.relationship = s := by
        have := List.find?_some hfind
        simpa using this
      rw [lookupCount, hfind, Option.map_some']
      by_cases hgs : g.side = s
      · rw [if_pos (by rw [hr, hgs])]
        simp [hgs]
      · rw [if_neg (by rw [hr]; exact fun he => hgs he.symm)]
        simp [hgs]
  · rw [if_neg hpres]
    have hnone := Option.not_isSome_iff_eq_none.mp hpres
    by_cases hgs : g.side = s
    · subst hgs
      rw [lookupCount, List.find?_append, hnone, Option.none_or,
        List.find?_cons_of_pos _ (by simp), lookupCount, hnone]
      simp
    · rw [lookupCount, List.find?_append,
        show List.find? (fun r => decide (r.relationship = s))
          [({ relationship := g.side, count := 1, brideOrGroom := g.brideOrGroom } : RelStat)] = none
          from by simp [hgs],
        Option.or_none, lookupCount]
      simp [hgs]

theorem lookupCount_foldl (gs : List Guest) :
    ∀ acc : List RelStat, ∀ s : String,
      lookupCount (gs.foldl bumpSide acc) s =
        lookupCount acc s + gs.countP (fun g => decide (g.side = s)) := by
  induction gs with
  | nil => intro acc s; simp
  | cons g t ih =>
    intro acc s
    rw [List.foldl_cons, ih (bumpSide acc g) s, lookupCount_bumpSide, List.countP_cons]
    by_cases h : g.side = s <;> simp [h] <;> omega

theorem lookupCount_sideCounts (gs : List Guest) (s : String) :
    lookupCount (sideCounts gs) s = gs.countP (fun g => decide (g.side = s)) := by
  have h := lookupCount_foldl gs [] s
  rw [sideCounts, h]
  simp [lookupCount]

theorem keysOf_bumpSide (acc : List RelStat) (g : Guest) :
    keysOf (bumpSide acc g) =
      if (List.find? (fun r => decide (r.relationship = g.side)) acc).isSome then keysOf acc
      else keysOf acc ++ [g.side] := by
  rw [bumpSide]
  by_cases h : (List.find? (fun r => decide (r.relationship = g.side)) acc).isSome
  · rw [if_pos h, if_pos h, keysOf, keysOf, List.map_map]
    apply List.map_congr_left
    intro r _
    show ((if r.relationship = g.side then { r with count := r.count + 1 } else r) : RelStat).relationship
      = r.relationship
    split <;> rfl
  · rw [if_neg h, if_neg h, keysOf, keysOf, List.map_append]
    rfl

theorem nodup_keysOf_bumpSide (acc : List RelStat) (g : Guest)
    (h : (keysOf acc).Nodup) : (keysOf (bumpSide acc g)).Nodup := by
  rw [keysOf_bumpSide]
  by_cases hp : (List.find? (fun r => decide (r.relationship = g.side)) acc).isSome
  · rw [if_pos hp]
    exact h
  · rw [if_neg hp]
    have hnone := Option.not_isSome_iff_eq_none.mp hp
    rw [List.nodup_append]
    refine ⟨h, List.nodup_singleton _, ?_⟩
    intro a ha hb
    rcases List.mem_singleton.mp hb with rfl
    rcases List.mem_map.mp ha with ⟨r, hr, hrel⟩
    have := List.find?_eq_none.mp hnone r hr
    simp [hrel] at this

theorem nodup_keysOf_foldl (gs : List Guest) :
    ∀ acc : List RelStat, (keysOf acc).Nodup → (keysOf (gs.foldl bumpSide acc)).Nodup := by
  induction gs with
  | nil => intro acc h; exact h
  | cons g t ih =>
    intro acc h
    rw [List.foldl_cons]
    exact ih (bumpSide acc g) (nodup_keysOf_bumpSide acc g h)

theorem nodup_keysOf_sideCounts (gs : List Guest) : (keysOf (sideCounts gs)).Nodup :=
  nodup_keysOf_foldl gs [] (by simp [keysOf])

theorem find?_eq_self_of_mem (l : List RelStat) (h : (keysOf l).Nodup) (r : RelStat)
    (hr : r ∈ l) :
    List.find? (fun x => decide (x.relationship = r.relationship)) l = some r := by
  induction l with
  | nil => cases hr
  | cons a t ih =>
    have hkeys : (keysOf (a :: t)) = a.relationship :: keysOf t := rfl
    rw [hkeys] at h
    rcases List.mem_cons.mp hr with rfl | hrt
    · exact List.find?_cons_of_pos _ (by simp)
    · have hne : a.relationship ≠ r.relationship := by
        intro he
        exact (List.nodup_cons.mp h).1 (he ▸ List.mem_map_of_mem (fun x => x.relationship) hrt)
      rw [List.find?_cons_of_neg _ (by simp [hne])]
      exact ih (List.nodup_cons.mp h).2 hrt

/-! Export/import round-trip lemmas (for C6). -/

theorem jsOrS_some_empty (v : String) : jsOrS (some v) "" = v := by
  by_cases h : v = "" <;> simp [jsOrS, h]

theorem jsOrS_some_ne (v : String) (d : String) (h : v ≠ "") : jsOrS (some v) d = v := by
  simp [jsOrS, h]

theorem parseRSVPStatus_statusStr (st : RSVPStatus) : parseRSVPStatus (statusStr st) = st := by
  cases st <;> decide

theorem strmk_data (s : String) : String.mk s.data = s := rfl

theorem csvRun_append (l1 l2 : List Char) : ∀ st : CsvSt,
    csvRun (l1 ++ l2) st = (csvRun l1 st).bind (fun st2 => csvRun l2 st2) := by
  induction l1 with
  | nil => intro st; rfl
  | cons c cs ih =>
    intro st
    show (match csvStep st c with
          | some st2 => csvRun (cs ++ l2) st2
          | none => none) =
        (match csvStep st c with
          | some st2 => csvRun cs st2
          | none => none).bind (fun st2 => csvRun l2 st2)
    cases csvStep st c with
    | some st2 => simpa using ih st2
    | none => rfl

theorem csvRun_quoted_body (cs : List Char) : ∀ cur : List Char, ∀ row : List String,
    ∀ rows : List (List String),
    csvRun (escBody cs) { mode := CsvMode.quoted, cur := cur, row := row, rows := rows } =
      some { mode := CsvMode.quoted, cur := cur ++ cs, row := row, rows := rows } := by
  induction cs with
  | nil =>
    intro cur row rows
    simp [escBody, csvRun]
  | cons c t ih =>
    intro cur row rows
    by_cases hc : c = '"'
    · subst hc
      show csvRun (['"', '"'] ++ escBody t) _ = _
      rw [csvRun_append,
        show csvRun ['"', '"'] { mode := CsvMode.quoted, cur := cur, row := row, rows := rows } =
          some { mode := CsvMode.quoted, cur := cur ++ ['"'], row := row, rows := rows } from rfl,
        Option.some_bind, ih]
      simp
    · rw [show escBody (c :: t) = (if c = '"' then ['"', '"'] else [c]) ++ escBody t from rfl,
        if_neg hc, csvRun_append]
      have hstep : csvRun [c] { mode := CsvMode.quoted, cur := cur, row := row, rows := rows } =
          some { mode := CsvMode.quoted, cur := cur ++ [c], row := row, rows := rows } := by
        simp [csvRun, csvStep, hc]
      rw [hstep, Option.some_bind, ih]
      simp

theorem csvRun_escape (cell : String) (row : List String) (rows : List (List String)) :
    csvRun (escapeCSV cell).data { mode := CsvMode.raw, cur := [], row := row, rows := rows } =
      some { mode := CsvMode.afterQuote, cur := cell.data, row := row, rows := rows } := by
  show csvRun (escBody cell.data ++ ['"'])
      { mode := CsvMode.quoted, cur := [], row := row, rows := rows } = _
  rw [csvRun_append, csvRun_quoted_body, Option.some_bind]
  rfl

theorem csvRun_rowline (cells : List String) : ∀ cell : String, ∀ row : List String,
    ∀ rows : List (List String),
    csvRun (joinSep "," ((cell :: cells).map escapeCSV)).data
        { mode := CsvMode.raw, cur := [], row := row, rows := rows } =
      some { mode := CsvMode.afterQuote, cur := ((cell :: cells).getLast (by simp)).data,
             row := row ++ (cell :: cells).dropLast, rows := rows } := by
  induction cells with
  | nil =>
    intro cell row rows
    show csvRun (escapeCSV cell).data _ = _
    rw [csvRun_escape]
    simp
  | cons c2 t ih =>
    intro cell row rows
    have hsplit : joinSep "," ((cell :: c2 :: t).map escapeCSV) =
        escapeCSV cell ++ "," ++ joinSep "," ((c2 :: t).map escapeCSV) := rfl
    rw [hsplit, String.data_append, String.data_append, List.append_assoc, csvRun_append,
      csvRun_escape, Option.some_bind]
    show csvRun (joinSep "," ((c2 :: t).map escapeCSV)).data
        { mode := CsvMode.raw, cur := [], row := row ++ [cell], rows := rows } = _
    rw [ih c2 (row ++ [cell]) rows]
    simp [List.getLast_cons, List.dropLast_cons₂, List.append_assoc]

theorem csvRun_rows_finish (rs : List (List String)) : ∀ r0 : List String, r0 ≠ [] →
    (∀ r ∈ rs, r ≠ ([] : List String)) → ∀ rows : List (List String),
    (csvRun (joinSep "\n" ((r0 :: rs).map (fun r => joinSep "," (r.map escapeCSV)))).data
        { mode := CsvMode.raw, cur := [], row := [], rows := rows }).bind csvFinish =
      some (rows ++ r0 :: rs) := by
  induction rs with
  | nil =>
    intro r0 h0 _ rows
    rcases r0 with _ | ⟨c, cs⟩
    · exact absurd rfl h0
    show (csvRun (joinSep "," ((c :: cs).map escapeCSV)).data
        { mode := CsvMode.raw, cur := [], row := [], rows := rows }).bind csvFinish = _
    rw [csvRun_rowline, Option.some_bind]
    show some (rows ++ [([] ++ (c :: cs).dropLast) ++
        [String.mk (((c :: cs).getLast (by simp)).data)]]) = _
    rw [strmk_data, List.nil_append, List.dropLast_append_getLast]
  | cons r1 rest ih =>
    intro r0 h0 hrs rows
    rcases r0 with _ | ⟨c, cs⟩
    · exact absurd rfl h0
    have hsplit : joinSep "\n" (((c :: cs) :: r1 :: rest).map (fun r => joinSep "," (r.map escapeCSV))) =
        joinSep "," ((c :: cs).map escapeCSV) ++ "\n" ++
          joinSep "\n" ((r1 :: rest).map (fun r => joinSep "," (r.map escapeCSV))) := rfl
    rw [hsplit, String.data_append, String.data_append, List.append_assoc, csvRun_append,
      csvRun_rowline, Option.some_bind]
    show (csvRun (joinSep "\n" ((r1 :: rest).map (fun r => joinSep "," (r.map escapeCSV)))).data
        { mode := CsvMode.raw, cur := [], row := [],
          rows := rows ++ [([] ++ (c :: cs).dropLast) ++
            [String.mk (((c :: cs).getLast (by simp)).data)]] }).bind csvFinish = _
    rw [show ([] ++ (c :: cs).dropLast) ++ [String.mk (((c :: cs).getLast (by simp)).data)] =
        c :: cs from by rw [strmk_data, List.nil_append, List.dropLast_append_getLast]]
    rw [ih r1 (hrs r1 (by simp)) (fun r hr => hrs r (by simp [hr])) (rows ++ [c :: cs])]
    simp

theorem parseGuest_rawOfGuest (g : Guest) (h : g.side ≠ "") :
    parseGuest (rawOfGuest g) = g := by
  obtain ⟨t, fn, ln, sf, s1, s2, w, rc, sd, bg, em, ph, ad⟩ := g
  have hsd : sd ≠ "" := h
  show Guest.mk _ _ _ _ _ _ _ _ _ _ _ _ _ =
    Guest.mk t fn ln sf s1 s2 w rc sd bg em ph ad
  rw [Guest.mk.injEq]
  refine ⟨?_, ?_, ?_, ?_, ?_, ?_, ?_, ?_, ?_, ?_, ?_, ?_, ?_⟩
  · exact jsOrS_some_empty t
  · exact jsOrS_some_empty fn
  · exact jsOrS_some_empty ln
  · exact jsOrS_some_empty sf
  · exact parseRSVPStatus_statusStr s1
  · exact parseRSVPStatus_statusStr s2
  · exact parseRSVPStatus_statusStr w
  · exact parseRSVPStatus_statusStr rc
  · exact jsOrS_some_ne sd _ hsd
  · cases bg <;> rfl
  · exact jsOrS_some_empty em
  · exact jsOrS_some_empty ph
  · exact jsOrS_some_empty ad

/-! Claim theorems: export/import round trip (C6). -/

/-- C6: every canonical record has a nonempty side, and exporting a record
set whose sides are nonempty to the CSV format (every cell double-quoted
with internal quotes doubled) and re-parsing the resulting raw rows through
the record parser yields exactly the same records; here the contact columns
(Email, Phone, Address) are part of the export column set, so they are
recovered too. -/
theorem export_import_roundtrip :
    (∀ raw : RawGuestData, (parseGuest raw).side ≠ "")
  ∧ (∀ gs : List Guest, (∀ g ∈ gs, g.side ≠ "") →
      (papaParse (exportToCSV gs)).map (fun rows => rows.map parseGuest) = some gs) := by
  constructor
  · intro raw
    show jsOrS (jsGet raw "Relationship") (jsOrS (jsGet raw "Side") "Unknown") ≠ ""
    have hinner : jsOrS (jsGet raw "Side") "Unknown" ≠ "" := by
      cases hs : jsGet raw "Side" with
      | none => simp [jsOrS]
      | some v => by_cases hv : v = "" <;> simp [jsOrS, hv]
    cases hr : jsGet raw "Relationship" with
    | none => simpa [jsOrS] using hinner
    | some v =>
      by_cases hv : v = ""
      · simpa [jsOrS, hv] using hinner
      · simp [jsOrS, hv]
  · intro gs hside
    cases gs with
    | nil => decide
    | cons g gs2 =>
      have hmaps : ((g :: gs2).map exportRow).map (fun r => joinSep "," (r.map escapeCSV)) =
          (g :: gs2).map exportRowLine := by
        rw [List.map_map]
        rfl
      have hsplit : exportToCSV (g :: gs2) =
          joinSep "," exportHeaders ++ "\n" ++ joinSep "\n" ((g :: gs2).map exportRowLine) := rfl
      have hne : exportToCSV (g :: gs2) ≠ "" := by
        intro he
        have hd := congrArg String.data he
        rw [hsplit, String.data_append, String.data_append] at hd
        rcases List.append_eq_nil.mp hd with ⟨h1, _⟩
        rcases List.append_eq_nil.mp h1 with ⟨h2, _⟩
        exact (by decide : (joinSep "," exportHeaders).data ≠ []) h2
      rw [papaParse, parseCSVText, if_neg hne, hsplit, ← hmaps, String.data_append,
        csvRun_append,
        show csvRun (joinSep "," exportHeaders ++ "\n").data
            { mode := CsvMode.raw, cur := [], row := [], rows := [] } =
          some { mode := CsvMode.raw, cur := [], row := [], rows := [exportHeaders] } from by decide,
        Option.some_bind, List.map_cons,
        csvRun_rows_finish (gs2.map exportRow) (exportRow g) (by simp [exportRow])
          (fun r hr => by rcases List.mem_map.mp hr with ⟨x, _, rfl⟩; simp [exportRow])
          [exportHeaders]]
      rw [Option.map_some', Option.map_some']
      show some (((exportRow g :: gs2.map exportRow).map (fun r => exportHeaders.zip r)).map parseGuest) =
        some (g :: gs2)
      rw [show exportRow g :: gs2.map exportRow = (g :: gs2).map exportRow from
          (List.map_cons exportRow g gs2).symm,
        List.map_map, List.map_map]
      have hid : ∀ x ∈ g :: gs2, ((parseGuest ∘ fun r => exportHeaders.zip r) ∘ exportRow) x = id x := by
        intro x hx
        exact parseGuest_rawOfGuest x (hside x hx)
      rw [List.map_congr_left hid, List.map_id]

/-- Witness for C6 at a concrete one-record set whose address cell contains
a double quote and a comma. -/
theorem export_import_roundtrip_witness :
    (∀ g ∈ [exampleExportGuest], g.side ≠ "") ∧
    (papaParse (exportToCSV [exampleExportGuest])).map (fun rows => rows.map parseGuest) =
      some [exampleExportGuest] :=
  ⟨by decide, export_import_roundtrip.2 [exampleExportGuest] (by decide)⟩

/-! Claim theorems: relationship/side breakdown (C5). -/

/-- C5: every entry of the relationship breakdown carries the exact count of
records with that side, every side occurring in the input has an entry, the
output is sorted by descending count, ties are broken by first-encountered
order (filtering any fixed count out of the output gives the insertion-order
grouped list, unchanged), and on the Friend/Family/Friend/Family example the
output is Friend=2 then Family=2. -/
theorem relationshipStats_grouped_sorted_stable (gs : List Guest) :
    (∀ r ∈ relationshipStats gs, r.count = gs.countP (fun g => decide (g.side = r.relationship)))
  ∧ (∀ s ∈ gs.map (fun g => g.side), ∃ r ∈ relationshipStats gs, r.relationship = s)
  ∧ (relationshipStats gs).Pairwise (fun a b => b.count ≤ a.count)
  ∧ (∀ c : Nat, (relationshipStats gs).filter (fun r => decide (r.count = c)) =
      (sideCounts gs).filter (fun r => decide (r.count = c)))
  ∧ relationshipStats exampleSides =
      [{ relationship := "Friend", count := 2, brideOrGroom := BrideOrGroom.Unknown },
       { relationship := "Family", count := 2, brideOrGroom := BrideOrGroom.Unknown }] := by
  refine ⟨fun r hr => ?_, fun s hs => ?_, ?_, fun c => ?_, by decide⟩
  · have hmem : r ∈ sideCounts gs := mem_sortByCountDesc.mp hr
    have hfind := find?_eq_self_of_mem (sideCounts gs) (nodup_keysOf_sideCounts gs) r hmem
    have := lookupCount_sideCounts gs r.relationship
    rw [lookupCount, hfind] at this
    exact this
  · rcases List.mem_map.mp hs with ⟨g, hg, rfl⟩
    have hpos : 0 < gs.countP (fun g2 => decide (g2.side = g.side)) :=
      List.countP_pos_iff.mpr ⟨g, hg, by simp⟩
    have hlook := lookupCount_sideCounts gs g.side
    rw [lookupCount] at hlook
    cases hfind : List.find? (fun r => decide (r.relationship = g.side)) (sideCounts gs) with
    | none =>
      rw [hfind] at hlook
      simp at hlook
      omega
    | some r =>
      refine ⟨r, mem_sortByCountDesc.mpr (List.mem_of_find?_eq_some hfind), ?_⟩
      have := List.find?_some hfind
      simpa using this
  · exact pairwise_sortByCountDesc (sideCounts gs)
  · exact filter_sortByCountDesc (sideCounts gs) c

/-- Witness for C5: on the Friend/Family example, the Friend entry of the
breakdown indeed carries the count of Friend-sided records. -/
theorem relationshipStats_grouped_sorted_stable_witness :
    ({ relationship := "Friend", count := 2, brideOrGroom := BrideOrGroom.Unknown } : RelStat).count =
      exampleSides.countP (fun g => decide (g.side = "Friend")) :=
  (relationshipStats_grouped_sorted_stable exampleSides).1
    { relationship := "Friend", count := 2, brideOrGroom := BrideOrGroom.Unknown } (by decide)

end RSVP
